import Mathlib

/-
Verification of the alertify-vision face-detection app against its
specification.  The embedding models, in order:

* the RecognizedFace data model and the confidence filter of the
  face-api component (ObjectDetection, detectFaces);
* the single-cell audio-alert debounce (handleAudioAlerts);
* the rolling face history (setFaceHistory with slice(0, 10));
* the component state transitions around stopCamera and the post-await
  continuation of detectFaces;
* the reference-descriptor loader (loadReferenceFaces) and the caller
  loadModels;
* the recognition service (recognizeFaces, current and older variant),
  with the external face-api.js matcher modelled from the spec.

Numeric scores and distances are embedded as rationals, timestamps as
integers (milliseconds).
-/

namespace AlertifyVision

/-- Bounding box of a detection, from the RecognizedFace interface of
src/services/faceRecognition.ts (fields x, y, width, height). -/
structure Box where
  x : ℚ
  y : ℚ
  width : ℚ
  height : ℚ
deriving DecidableEq, Repr

/-- A recognized face per src/services/faceRecognition.ts: id, name,
category (the strings "user", "celebrity" or "unknown"), bounding box and
an optional similarity score (the TS field is `score?: number`). -/
structure RecognizedFace where
  id : String
  name : String
  category : String
  box : Box
  score : Option ℚ
deriving DecidableEq, Repr

/-- The confidence filter inside detectFaces of the face-api component:
`recognizedFaces.filter(face => face.score && face.score > confidence)`.
In JS an absent score and a score of 0 are both falsy, so such faces are
dropped regardless of the threshold. -/
def filterFaces (confidence : ℚ) (faces : List RecognizedFace) : List RecognizedFace :=
  faces.filter fun f =>
    match f.score with
    | none => false
    | some s => decide (¬ s = 0) && decide (confidence < s)

/-- The last-spoken memory cell, `lastSpokenRef.current = {label, time}`. -/
structure AlertState where
  label : String
  time : ℤ
deriving DecidableEq, Repr

/-- The utterance text chosen in handleAudioAlerts of the face-api
component: a greeting for ASHAL, a celebrity announcement, or the generic
unknown-person phrase. -/
def utteranceFor (f : RecognizedFace) : String :=
  if f.name = "ASHAL" then "Hello ASHAL, welcome back!"
  else if f.category = "celebrity" then "Celebrity detected: " ++ f.name
  else "Unknown person detected"

/-- One face handled inside the forEach of handleAudioAlerts: suppress when
the cell holds the same label spoken less than 5000ms ago, otherwise speak
and overwrite the cell with {label: face.name, time: now}. -/
def alertFace (now : ℤ) (acc : AlertState × List String) (f : RecognizedFace) :
    AlertState × List String :=
  if acc.1.label = f.name ∧ now - acc.1.time < 5000 then acc
  else (⟨f.name, now⟩, acc.2 ++ [utteranceFor f])

/-- handleAudioAlerts of the face-api component: return immediately when
muted or when no faces were passed, else process each face in order.
The returned list is the utterances spoken during this call. -/
def handleAudioAlerts (isMuted : Bool) (now : ℤ) (st : AlertState)
    (faces : List RecognizedFace) : AlertState × List String :=
  if isMuted || faces.isEmpty then (st, [])
  else faces.foldl (alertFace now) (st, [])

/-- A sequence of detection cycles fed to the alert dispatcher, starting
from the initial cell {label: '', time: 0}; each event is (Date.now(),
filtered faces) and the spoken utterances are accumulated. -/
def runAlertsFrom (isMuted : Bool) (st : AlertState) (log : List String)
    (events : List (ℤ × List RecognizedFace)) : AlertState × List String :=
  match events with
  | [] => (st, log)
  | e :: rest =>
    let r := handleAudioAlerts isMuted e.1 st e.2
    runAlertsFrom isMuted r.1 (log ++ r.2) rest

/-- Run the alert dispatcher over a whole trace from its initial state. -/
def runAlerts (isMuted : Bool) (events : List (ℤ × List RecognizedFace)) :
    AlertState × List String :=
  runAlertsFrom isMuted ⟨"", 0⟩ [] events

/-- One history update from detectFaces:
`setFaceHistory(prev => [...newEntries, ...prev].slice(0, 10))`. -/
def histUpdate (newEntries prev : List String) : List String :=
  (newEntries ++ prev).take 10

/-- The face history after a sequence of detection cycles, oldest cycle
first; each cycle contributes its freshly formatted entries. -/
def runHistory (cycles : List (List String)) : List String :=
  cycles.foldl (fun prev es => histUpdate es prev) []

/-- The mutable component state of ObjectDetection that the claims are
about: the running flag (isStarted), the interval handle (timerActive
models detectionIntervalRef being non-null), the current detection set,
the log of drawFaces invocations, the alert cell, the spoken utterances
and the face history. -/
structure CompState where
  isStarted : Bool
  timerActive : Bool
  detections : List RecognizedFace
  drawLog : List (List RecognizedFace)
  alertCell : AlertState
  spokenLog : List String
  faceHistory : List String
deriving DecidableEq, Repr

/-- stopCamera of the face-api component: stop the tracks, clear the
interval handle, set isStarted false and clear the detections.  The alert
cell, logs and history are untouched. -/
def stopCamera (s : CompState) : CompState :=
  { s with isStarted := false, timerActive := false, detections := [] }

/-- The entry guard of detectFaces:
`if (!videoRef.current || !canvasRef.current || !isStarted) return;`
so the body only runs when both refs exist and isStarted holds. -/
def canRunDetect (hasVideo hasCanvas : Bool) (s : CompState) : Bool :=
  hasVideo && hasCanvas && s.isStarted

/-- The continuation of detectFaces after `await recognizeFaces(video)`
resolves: filter by the confidence threshold, store the filtered set
(setDetections), draw it (drawFaces), run handleAudioAlerts on it, and,
when it is nonempty, prepend its formatted entries to the history capped
at 10.  Note the source performs no isStarted recheck in this region. -/
def detectResolve (confidence : ℚ) (isMuted : Bool) (now : ℤ) (timestamp : String)
    (s : CompState) (recognized : List RecognizedFace) : CompState :=
  let filtered := filterFaces confidence recognized
  let alerted := handleAudioAlerts isMuted now s.alertCell filtered
  { s with
    detections := filtered,
    drawLog := s.drawLog ++ [filtered],
    alertCell := alerted.1,
    spokenLog := s.spokenLog ++ alerted.2,
    faceHistory :=
      if filtered.length > 0 then
        histUpdate (filtered.map fun f => f.name ++ " detected at " ++ timestamp)
          s.faceHistory
      else s.faceHistory }

/-- A reference identity from src/data/knownFaces.ts: id, display name,
image URL and category ("user" or "celebrity"). -/
structure KnownFace where
  id : String
  name : String
  imageUrl : String
  category : String
deriving DecidableEq, Repr

/-- The static reference list of src/data/knownFaces.ts. -/
def knownFaces : List KnownFace :=
  [⟨"ashal", "ASHAL", "/lovable-uploads/220e9480-454a-42c0-910b-d83696066ac6.png", "user"⟩,
   ⟨"tom-cruise", "Tom Cruise",
     "https://upload.wikimedia.org/wikipedia/commons/3/33/Tom_Cruise_by_Gage_Skidmore_2.jpg",
     "celebrity"⟩,
   ⟨"taylor-swift", "Taylor Swift",
     "https://upload.wikimedia.org/wikipedia/commons/b/b5/191125_Taylor_Swift_at_the_2019_American_Music_Awards_%28cropped%29.png",
     "celebrity"⟩,
   ⟨"leonardo-dicaprio", "Leonardo DiCaprio",
     "https://upload.wikimedia.org/wikipedia/commons/4/46/Leonardo_Dicaprio_Cannes_2019.jpg",
     "celebrity"⟩,
   ⟨"beyonce", "Beyonc√©",
     "https://upload.wikimedia.org/wikipedia/commons/1/17/Beyonc%C3%A9_at_The_Lion_King_European_Premiere_2019.png",
     "celebrity"⟩]

/-- A labeled descriptor: faceapi.LabeledFaceDescriptors(face.id, [descriptor]),
one descriptor vector per reference identity. -/
structure LabeledDescriptor where
  label : String
  descriptor : List ℚ
deriving DecidableEq, Repr

/-- The result of the matcher: faceapi.FaceMatch with a label and the
distance of the best match. -/
structure FaceMatch where
  label : String
  distance : ℚ
deriving DecidableEq, Repr

/-- Modelled from the spec: descriptors live in "Euclidean descriptor
space" and the matcher compares Euclidean distances; the library code
computing them is not in this repository.  We embed the squared Euclidean
distance, which vanishes exactly when the distance does and induces the
same ordering of candidates. -/
def euclidSq (a b : List ℚ) : ℚ :=
  ((a.zip b).map fun p => (p.1 - p.2) ^ 2).sum

/-- The reduction step keeping the candidate with the strictly smaller
distance: on ties the earlier candidate is kept, so the first label in
load order wins. -/
def pickMin (b c : String × ℚ) : String × ℚ :=
  if c.2 < b.2 then c else b

/-- Modelled from the spec: faceapi.FaceMatcher.findBestMatch is external
library code; per the spec it computes the distance from the query to
every labeled descriptor, returns the label achieving the minimum when
that minimum is below the threshold, and otherwise returns "unknown"
together with that minimum distance, ties going to the first label in
load order. -/
def findBestMatch (dist : List ℚ → List ℚ → ℚ) (threshold : ℚ)
    (lds : List LabeledDescriptor) (query : List ℚ) : FaceMatch :=
  match lds.map (fun ld => (ld.label, dist query ld.descriptor)) with
  | [] => ⟨"unknown", 0⟩
  | p :: ps =>
    let best := ps.foldl pickMin p
    if best.2 < threshold then ⟨best.1, best.2⟩ else ⟨"unknown", best.2⟩

/-- A raw detection handed to the recognition service: its bounding box
and (when landmarks and descriptors were requested) its descriptor. -/
structure Detection where
  box : Box
  descriptor : List ℚ
deriving DecidableEq, Repr

/-- The detection-only fallback entry of recognizeFaces: name
"Face Detected", category "unknown" and no score field.  In the source
the id embeds Date.now() and a random suffix; the claims never inspect
it, so it is the constant "unknown" here. -/
def fallbackFace (b : Box) : RecognizedFace :=
  { id := "unknown", name := "Face Detected", category := "unknown",
    box := b, score := none }

/-- The unknown-face branch of recognizeFaces: name "Unknown", category
"unknown" and score 1 - match.distance. -/
def unknownResult (m : FaceMatch) (b : Box) : RecognizedFace :=
  { id := "unknown", name := "Unknown", category := "unknown",
    box := b, score := some (1 - m.distance) }

/-- The map body of recognizeFaces (src/services/faceRecognition.ts lines
116-152): look the matched label up in knownFaces; when the label is not
"unknown" and a known face was found, return that identity with score
1 - match.distance; otherwise return the unknown-face entry, also scored
1 - match.distance. -/
def matchToFace (kfs : List KnownFace) (m : FaceMatch) (b : Box) : RecognizedFace :=
  match kfs.find? (fun f => f.id == m.label) with
  | some f =>
    if m.label ≠ "unknown" then
      { id := f.id, name := f.name, category := f.category,
        box := b, score := some (1 - m.distance) }
    else unknownResult m b
  | none => unknownResult m b

/-- recognizeFaces of src/services/faceRecognition.ts: with no matcher,
every detection becomes a scoreless "Face Detected" entry; with a matcher,
every detection is matched against the labeled descriptors with the 0.6
threshold. -/
def recognizeFaces (matcher : Option (List LabeledDescriptor))
    (kfs : List KnownFace) (dets : List Detection) : List RecognizedFace :=
  match matcher with
  | none => dets.map fun d => fallbackFace d.box
  | some lds =>
    dets.map fun d => matchToFace kfs (findBestMatch euclidSq (3/5) lds d.descriptor) d.box

/-- recognizeFaces of the older service variant (`if (!faceMatcher)
return [];`): with no matcher the cycle yields the empty list. -/
def recognizeFacesOld (matcher : Option (List LabeledDescriptor))
    (kfs : List KnownFace) (dets : List Detection) : List RecognizedFace :=
  match matcher with
  | none => []
  | some lds =>
    dets.map fun d => matchToFace kfs (findBestMatch euclidSq (3/5) lds d.descriptor) d.box

/-- What happened while processing one reference image in the
loadReferenceFaces loop: a descriptor was extracted, the fetch or
detection threw, or no face was found in the image. -/
inductive RefOutcome where
  | ok (descriptor : List ℚ)
  | fetchError
  | noFace
deriving DecidableEq, Repr

/-- The per-identity loop of loadReferenceFaces: push one labeled
descriptor on success; a thrown error is caught and logged, a zero-face
image is warned about, and in both cases the loop continues with the
remaining identities. -/
def collectDescriptors (entries : List (KnownFace × RefOutcome)) :
    List LabeledDescriptor :=
  entries.foldl
    (fun acc e =>
      match e.2 with
      | .ok d => acc ++ [⟨e.1.id, d⟩]
      | .fetchError => acc
      | .noFace => acc)
    []

/-- The contribution of one entry to the labeled descriptor set: only
successful extractions yield a descriptor, labeled with the identity id. -/
def okProj (e : KnownFace × RefOutcome) : Option LabeledDescriptor :=
  match e.2 with
  | .ok d => some ⟨e.1.id, d⟩
  | .fetchError => none
  | .noFace => none

/-- loadReferenceFaces of src/services/faceRecognition.ts: when no labeled
descriptor could be collected, warn that recognition will be limited to
detection only and return false without building a matcher; otherwise
build the matcher with the 0.6 threshold and return true. -/
def loadReferenceFaces (entries : List (KnownFace × RefOutcome)) :
    Option (List LabeledDescriptor) × Bool :=
  let lds := collectDescriptors entries
  if lds.isEmpty then (none, false) else (some lds, true)

/-- How the model-loading effect in the component ends: either the success
toast ("Face recognition ready!") or the failure toast ("Failed to load
face recognition models"). -/
inductive LoadOutcome where
  | ready
  | loadErrorToast
deriving DecidableEq, Repr

/-- loadModels of the face-api component: a false return from either
loadFaceRecognitionModels or loadReferenceFaces is turned into a thrown
Error, caught, and reported with the failure toast. -/
def loadModels (modelsLoaded referencesLoaded : Bool) : LoadOutcome :=
  if modelsLoaded then
    if referencesLoaded then .ready else .loadErrorToast
  else .loadErrorToast

/-- A sample bounding box used by the concrete instances below. -/
def sampleBox : Box := ⟨10, 20, 100, 120⟩

/-- A sample recognized celebrity face with similarity score 9/10. -/
def sampleFace : RecognizedFace :=
  ⟨"tom-cruise", "Tom Cruise", "celebrity", sampleBox, some (9/10)⟩

/-- A component state in which the camera runs and nothing was detected,
drawn, spoken or recorded yet. -/
def runningState : CompState :=
  ⟨true, true, [], [], ⟨"", 0⟩, [], []⟩

/-- Evaluation rule for the confidence filter: a face whose score is
present, nonzero and above the threshold is kept. -/
theorem filterFaces_keep (c : ℚ) (f : RecognizedFace) (fs : List RecognizedFace)
    (s : ℚ) (hs : f.score = some s) (h0 : s ≠ 0) (hc : c < s) :
    filterFaces c (f :: fs) = f :: filterFaces c fs := by
  simp only [filterFaces, List.filter_cons, hs]
  rw [decide_eq_true h0, decide_eq_true hc]
  simp

/-- The confidence filter of the empty list is empty. -/
theorem filterFaces_nil (c : ℚ) : filterFaces c [] = [] := rfl

/-- C2: for every confidence threshold t in [0,1], only faces whose
similarity score is at least t pass the filter feeding the rendered,
alerted and history-recorded set; the filter is monotone (raising the
threshold never adds a face); and detectResolve stores exactly the
filtered set. -/
theorem c2_confidence_filter_sound_monotone (t u : ℚ)
    (faces : List RecognizedFace) (m : Bool) (now : ℤ) (ts : String)
    (s : CompState) (ht0 : 0 ≤ t) (ht1 : t ≤ 1) (htu : t ≤ u) :
    (∀ f ∈ filterFaces t faces, ∃ sc, f.score = some sc ∧ t ≤ sc) ∧
    (∀ f ∈ filterFaces u faces, f ∈ filterFaces t faces) ∧
    (detectResolve t m now ts s faces).detections = filterFaces t faces := by
  refine ⟨?_, ?_, rfl⟩
  · intro f hf
    rw [filterFaces, List.mem_filter] at hf
    obtain ⟨-, hp⟩ := hf
    cases hsc : f.score with
    | none => rw [hsc] at hp; simp at hp
    | some sc =>
      rw [hsc] at hp
      simp only [Bool.and_eq_true, decide_eq_true_eq] at hp
      exact ⟨sc, rfl, le_of_lt hp.2⟩
  · intro f hf
    rw [filterFaces, List.mem_filter] at hf ⊢
    obtain ⟨hmem, hp⟩ := hf
    refine ⟨hmem, ?_⟩
    cases hsc : f.score with
    | none => rw [hsc] at hp; simp at hp
    | some sc =>
      rw [hsc] at hp
      simp only [Bool.and_eq_true, decide_eq_true_eq] at hp ⊢
      exact ⟨hp.1, lt_of_le_of_lt htu hp.2⟩

/-- Witness for C2 at threshold 1/2 raised to 3/4 on a concrete face. -/
theorem c2_witness :
    (0:ℚ) ≤ 1/2 ∧ (1/2:ℚ) ≤ 1 ∧ (1/2:ℚ) ≤ 3/4 ∧
    ((∀ f ∈ filterFaces (1/2) [sampleFace], ∃ sc, f.score = some sc ∧ (1/2:ℚ) ≤ sc) ∧
     (∀ f ∈ filterFaces (3/4) [sampleFace], f ∈ filterFaces (1/2) [sampleFace]) ∧
     (detectResolve (1/2) true 0 "t" runningState [sampleFace]).detections
       = filterFaces (1/2) [sampleFace]) :=
  ⟨by norm_num, by norm_num, by norm_num,
   c2_confidence_filter_sound_monotone (1/2) (3/4) [sampleFace] true 0 "t"
     runningState (by norm_num) (by norm_num) (by norm_num)⟩

/-- C1 counterexample: start from a running component, complete stopCamera,
then let an in-flight detectFaces resolve with one confident face.  The
detections state after the resolution is that face (not empty), and
drawFaces was invoked with exactly that late result — the running guard is
not rechecked after the await. -/
theorem c1_counterexample :
    (detectResolve (1/2) true 0 "t" (stopCamera runningState) [sampleFace]).detections
      = [sampleFace] ∧
    [sampleFace] ≠ ([] : List RecognizedFace) ∧
    (detectResolve (1/2) true 0 "t" (stopCamera runningState) [sampleFace]).drawLog
      = [[sampleFace]] := by
  have hfil : filterFaces (1/2) [sampleFace] = [sampleFace] := by
    rw [filterFaces_keep (1/2) sampleFace [] (9/10) rfl (by norm_num) (by norm_num),
      filterFaces_nil]
  refine ⟨?_, List.cons_ne_nil _ _, ?_⟩
  · show filterFaces (1/2) [sampleFace] = [sampleFace]
    exact hfil
  · show ([] : List (List RecognizedFace)) ++ [filterFaces (1/2) [sampleFace]]
      = [[sampleFace]]
    rw [hfil]
    rfl

/-- C1 (amended): stopping the camera clears the timer handle and makes the
entry guard of detectFaces fail, so no new tick starts; but the post-await
continuation has no guard: a detector call resolving after stopCamera
stores its filtered result as the current detections and appends it to the
draw log. -/
theorem c1_amended_late_result_rendered (s : CompState)
    (recognized : List RecognizedFace) (t : ℚ) (m : Bool) (now : ℤ) (ts : String) :
    (stopCamera s).timerActive = false ∧
    canRunDetect true true (stopCamera s) = false ∧
    (detectResolve t m now ts (stopCamera s) recognized).detections
      = filterFaces t recognized ∧
    (detectResolve t m now ts (stopCamera s) recognized).drawLog
      = (stopCamera s).drawLog ++ [filterFaces t recognized] :=
  ⟨rfl, rfl, rfl, rfl⟩

/-- C9: in detection-only mode (no matcher) a detection cycle renders,
alerts and records nothing: the older service variant returns the empty
list outright, the current one returns scoreless "Face Detected" entries
that the confidence filter removes wholesale, so the cycle stores an empty
detection set, draws an empty box list, speaks nothing and leaves the
history unchanged. -/
theorem c9_no_matcher_empty_cycle (kfs : List KnownFace) (dets : List Detection)
    (t : ℚ) (m : Bool) (now : ℤ) (ts : String) (s : CompState) :
    recognizeFacesOld none kfs dets = [] ∧
    filterFaces t (recognizeFaces none kfs dets) = [] ∧
    (detectResolve t m now ts s (recognizeFaces none kfs dets)).detections = [] ∧
    (detectResolve t m now ts s (recognizeFaces none kfs dets)).drawLog
      = s.drawLog ++ [[]] ∧
    (detectResolve t m now ts s (recognizeFaces none kfs dets)).spokenLog
      = s.spokenLog ∧
    (detectResolve t m now ts s (recognizeFaces none kfs dets)).faceHistory
      = s.faceHistory := by
  have hfil : filterFaces t (recognizeFaces none kfs dets) = [] := by
    rw [filterFaces, recognizeFaces, List.filter_eq_nil_iff]
    intro f hf
    obtain ⟨d, -, hd⟩ := List.mem_map.mp hf
    subst hd
    simp [fallbackFace]
  have halert : ∀ st : AlertState, handleAudioAlerts m now st [] = (st, []) := by
    intro st
    rw [handleAudioAlerts]
    simp
  refine ⟨rfl, hfil, ?_, ?_, ?_, ?_⟩
  · show filterFaces t (recognizeFaces none kfs dets) = []
    exact hfil
  · show s.drawLog ++ [filterFaces t (recognizeFaces none kfs dets)] = s.drawLog ++ [[]]
    rw [hfil]
  · show s.spokenLog
        ++ (handleAudioAlerts m now s.alertCell
              (filterFaces t (recognizeFaces none kfs dets))).2
      = s.spokenLog
    rw [hfil, halert]
    simp
  · show (if (filterFaces t (recognizeFaces none kfs dets)).length > 0 then
        histUpdate
          ((filterFaces t (recognizeFaces none kfs dets)).map
            fun f => f.name ++ " detected at " ++ ts) s.faceHistory
      else s.faceHistory) = s.faceHistory
    rw [hfil]
    simp

/-- Taking n of a list whose tail was already truncated to n elements is
the same as truncating the whole concatenation. -/
theorem take_append_take (a b : List String) (n : ℕ) :
    (a ++ b.take n).take n = (a ++ b).take n := by
  rw [List.take_append_eq_append_take, List.take_append_eq_append_take,
    List.take_take, Nat.min_eq_left (Nat.sub_le n a.length)]

/-- Folding history updates from any truncated start: the result is the 10
newest entries of the newest-first concatenation of all cycles. -/
theorem runHistory_aux (cycles : List (List String)) (x : List String) :
    cycles.foldl (fun prev es => histUpdate es prev) (x.take 10)
      = (cycles.reverse.flatten ++ x).take 10 := by
  induction cycles generalizing x with
  | nil => simp
  | cons c cs ih =>
    rw [List.foldl_cons]
    show cs.foldl (fun prev es => histUpdate es prev) (histUpdate c (x.take 10)) = _
    rw [histUpdate, take_append_take, ih (c ++ x)]
    simp [List.append_assoc]

/-- A list of nonempty lists has at least as many flattened elements as
lists. -/
theorem length_le_flatten_length (L : List (List String)) (h : ∀ c ∈ L, c ≠ []) :
    L.length ≤ L.flatten.length := by
  induction L with
  | nil => simp
  | cons c cs ih =>
    have hc : c ≠ [] := h c (List.mem_cons_self c cs)
    have h1 : 1 ≤ c.length := List.length_pos.mpr hc
    have h2 := ih fun d hd => h d (List.mem_cons_of_mem c hd)
    simp only [List.flatten_cons, List.length_append, List.length_cons]
    omega

/-- C6: after more than 10 detection cycles each yielding at least one
entry, the history holds exactly the 10 most recent entries, newest first
(it equals the newest-first concatenation truncated to 10, and has length
exactly 10); and every single update keeps the length at most 10. -/
theorem c6_history_cap (cycles : List (List String)) (es prev : List String)
    (hN : 10 < cycles.length) (hne : ∀ c ∈ cycles, c ≠ []) :
    runHistory cycles = (cycles.reverse.flatten).take 10 ∧
    (runHistory cycles).length = 10 ∧
    (histUpdate es prev).length ≤ 10 := by
  have hmain : runHistory cycles = (cycles.reverse.flatten).take 10 := by
    have h := runHistory_aux cycles []
    simpa [runHistory] using h
  refine ⟨hmain, ?_, ?_⟩
  · rw [hmain, List.length_take]
    have h1 : cycles.length ≤ cycles.reverse.flatten.length := by
      have h2 := length_le_flatten_length cycles.reverse
        fun c hc => hne c (List.mem_reverse.mp hc)
      simpa using h2
    omega
  · rw [histUpdate, List.length_take]
    omega

/-- Eleven detection cycles, each contributing one entry. -/
def elevenCycles : List (List String) := List.replicate 11 ["e"]

/-- Witness for C6 on eleven one-entry cycles. -/
theorem c6_witness :
    10 < elevenCycles.length ∧ (∀ c ∈ elevenCycles, c ≠ []) ∧
    (runHistory elevenCycles = (elevenCycles.reverse.flatten).take 10 ∧
     (runHistory elevenCycles).length = 10 ∧
     (histUpdate ["a"] []).length ≤ 10) :=
  ⟨by decide, by decide,
   c6_history_cap elevenCycles ["a"] [] (by decide) (by decide)⟩

/-- A first celebrity face for the alert traces. -/
def faceA : RecognizedFace := ⟨"a", "Alpha", "celebrity", sampleBox, some 1⟩

/-- A second celebrity face for the alert traces. -/
def faceB : RecognizedFace := ⟨"b", "Beta", "celebrity", sampleBox, some 1⟩

/-- Unfolding one event of an alert trace. -/
theorem runAlertsFrom_cons (m : Bool) (st : AlertState) (log : List String)
    (e : ℤ × List RecognizedFace) (rest : List (ℤ × List RecognizedFace)) :
    runAlertsFrom m st log (e :: rest)
      = runAlertsFrom m (handleAudioAlerts m e.1 st e.2).1
          (log ++ (handleAudioAlerts m e.1 st e.2).2) rest := rfl

/-- An exhausted alert trace returns the cell and the accumulated log. -/
theorem runAlertsFrom_nil (m : Bool) (st : AlertState) (log : List String) :
    runAlertsFrom m st log [] = (st, log) := rfl

/-- An unmuted call on one face speaks and overwrites the cell whenever the
suppression condition fails. -/
theorem handleAudioAlerts_single_speak (now : ℤ) (st : AlertState)
    (f : RecognizedFace) (h : ¬ (st.label = f.name ∧ now - st.time < 5000)) :
    handleAudioAlerts false now st [f] = (⟨f.name, now⟩, [utteranceFor f]) := by
  rw [handleAudioAlerts, if_neg (by simp)]
  rw [List.foldl_cons, List.foldl_nil, alertFace, if_neg h]
  rfl

/-- An unmuted call on one face is suppressed and leaves the cell alone
whenever the cell holds the same label spoken under 5000ms ago. -/
theorem handleAudioAlerts_single_suppress (now : ℤ) (st : AlertState)
    (f : RecognizedFace) (h : st.label = f.name ∧ now - st.time < 5000) :
    handleAudioAlerts false now st [f] = (st, []) := by
  rw [handleAudioAlerts, if_neg (by simp)]
  rw [List.foldl_cons, List.foldl_nil, alertFace, if_pos h]

/-- C5 counterexample: two identical-label ("Alpha") detections 2000ms
apart — well within 5000ms — with a "Beta" detection in between produce
two spoken Alpha alerts, not one: the single memory cell was overwritten
by Beta, so the second Alpha detection is not suppressed. -/
theorem c5_counterexample :
    (runAlerts false [((0:ℤ), [faceA]), (1000, [faceB]), (2000, [faceA])]).2
      = [utteranceFor faceA, utteranceFor faceB, utteranceFor faceA] ∧
    (runAlerts false [((0:ℤ), [faceA]), (1000, [faceB]), (2000, [faceA])]).2.count
      (utteranceFor faceA) = 2 := by
  refine ⟨rfl, rfl⟩

/-- C5 (amended): with no intervening different-label alert, the
single-cell debounce behaves as claimed: starting from the initial cell,
two detections of the same (nonempty) label under 5000ms apart speak
exactly once, two detections at least 5000ms apart speak twice, and each
spoken phrase overwrites the cell with that label and timestamp. -/
theorem c5_amended_debounce (f : RecognizedFace) (t1 t2 : ℤ)
    (hname : f.name ≠ "") :
    (t2 - t1 < 5000 →
      (runAlerts false [(t1, [f]), (t2, [f])]).2 = [utteranceFor f] ∧
      (runAlerts false [(t1, [f]), (t2, [f])]).1 = ⟨f.name, t1⟩) ∧
    (5000 ≤ t2 - t1 →
      (runAlerts false [(t1, [f]), (t2, [f])]).2
        = [utteranceFor f, utteranceFor f] ∧
      (runAlerts false [(t1, [f]), (t2, [f])]).1 = ⟨f.name, t2⟩) := by
  have h1 : handleAudioAlerts false t1 ⟨"", 0⟩ [f]
      = (⟨f.name, t1⟩, [utteranceFor f]) :=
    handleAudioAlerts_single_speak t1 ⟨"", 0⟩ f
      (by rintro ⟨hl, -⟩; exact hname hl.symm)
  constructor
  · intro hlt
    have h2 : handleAudioAlerts false t2 ⟨f.name, t1⟩ [f] = (⟨f.name, t1⟩, []) :=
      handleAudioAlerts_single_suppress t2 ⟨f.name, t1⟩ f ⟨rfl, hlt⟩
    rw [runAlerts, runAlertsFrom_cons]
    dsimp only
    rw [h1]
    dsimp only
    rw [runAlertsFrom_cons]
    dsimp only
    rw [h2]
    dsimp only
    rw [runAlertsFrom_nil]
    simp
  · intro hge
    have h2 : handleAudioAlerts false t2 ⟨f.name, t1⟩ [f]
        = (⟨f.name, t2⟩, [utteranceFor f]) :=
      handleAudioAlerts_single_speak t2 ⟨f.name, t1⟩ f
        (by rintro ⟨-, ht⟩; change t2 - t1 < 5000 at ht; omega)
    rw [runAlerts, runAlertsFrom_cons]
    dsimp only
    rw [h1]
    dsimp only
    rw [runAlertsFrom_cons]
    dsimp only
    rw [h2]
    dsimp only
    rw [runAlertsFrom_nil]
    simp

/-- Witness for C5 (amended) on the face "Alpha" at times 0 and 6000. -/
theorem c5_witness :
    faceA.name ≠ "" ∧
    (((6000:ℤ) - 0 < 5000 →
        (runAlerts false [((0:ℤ), [faceA]), (6000, [faceA])]).2
          = [utteranceFor faceA] ∧
        (runAlerts false [((0:ℤ), [faceA]), (6000, [faceA])]).1
          = ⟨faceA.name, 0⟩) ∧
     ((5000:ℤ) ≤ 6000 - 0 →
        (runAlerts false [((0:ℤ), [faceA]), (6000, [faceA])]).2
          = [utteranceFor faceA, utteranceFor faceA] ∧
        (runAlerts false [((0:ℤ), [faceA]), (6000, [faceA])]).1
          = ⟨faceA.name, 6000⟩)) :=
  ⟨by decide, c5_amended_debounce faceA 0 6000 (by decide)⟩

/-- The strict-comparison fold keeping the first minimum: its result is a
lower bound of all candidate distances, and it is the first candidate
whose distance reaches that bound (the find? of the at-most-minimum
predicate), which is the load-order tie-break. -/
theorem foldl_pickMin_spec (t : List (String × ℚ)) (h : String × ℚ) :
    (∀ x ∈ h :: t, (t.foldl pickMin h).2 ≤ x.2) ∧
    (h :: t).find? (fun p => decide (p.2 ≤ (t.foldl pickMin h).2))
      = some (t.foldl pickMin h) := by
  induction t generalizing h with
  | nil =>
    refine ⟨?_, ?_⟩
    · intro x hx
      rw [List.mem_singleton] at hx
      subst hx
      exact le_refl _
    · rw [List.foldl_nil]
      exact List.find?_cons_of_pos _ (by simp)
  | cons a t' ih =>
    rw [List.foldl_cons]
    by_cases hc : a.2 < h.2
    · have hpick : pickMin h a = a := by rw [pickMin, if_pos hc]
      rw [hpick]
      obtain ⟨ihmin, ihfind⟩ := ih a
      have hra : (t'.foldl pickMin a).2 ≤ a.2 :=
        ihmin a (List.mem_cons_self a t')
      have hrh : (t'.foldl pickMin a).2 < h.2 := lt_of_le_of_lt hra hc
      refine ⟨?_, ?_⟩
      · intro x hx
        rcases List.mem_cons.mp hx with hxh | hxt
        · subst hxh
          exact le_of_lt hrh
        · exact ihmin x hxt
      · rw [List.find?_cons_of_neg _ (by simpa using not_le.mpr hrh)]
        exact ihfind
    · have hpick : pickMin h a = h := by rw [pickMin, if_neg hc]
      rw [hpick]
      obtain ⟨ihmin, ihfind⟩ := ih h
      have hrh : (t'.foldl pickMin h).2 ≤ h.2 :=
        ihmin h (List.mem_cons_self h t')
      have hha : h.2 ≤ a.2 := not_lt.mp hc
      refine ⟨?_, ?_⟩
      · intro x hx
        rcases List.mem_cons.mp hx with hxh | hxt
        · subst hxh
          exact hrh
        · rcases List.mem_cons.mp hxt with hxa | hxt'
          · subst hxa
            exact le_trans hrh hha
          · exact ihmin x (List.mem_cons_of_mem h hxt')
      · by_cases hh : h.2 ≤ (t'.foldl pickMin h).2
        · have hfh : (h :: t').find?
              (fun p => decide (p.2 ≤ (t'.foldl pickMin h).2)) = some h :=
            List.find?_cons_of_pos _ (by simpa using hh)
          have hres : some h = some (t'.foldl pickMin h) := by
            rw [← hfh, ihfind]
          rw [List.find?_cons_of_pos _ (by simpa using hh)]
          exact hres
        · have hlt : (t'.foldl pickMin h).2 < h.2 := not_le.mp hh
          have hta : (t'.foldl pickMin h).2 < a.2 := lt_of_lt_of_le hlt hha
          have hft : t'.find?
              (fun p => decide (p.2 ≤ (t'.foldl pickMin h).2))
              = some (t'.foldl pickMin h) := by
            rw [List.find?_cons_of_neg _ (by simpa using hh)] at ihfind
            exact ihfind
          rw [List.find?_cons_of_neg _ (by simpa using hh),
            List.find?_cons_of_neg _ (by simpa using not_le.mpr hta)]
          exact hft

/-- The matcher contract, shared form: for a nonempty labeled set, the
returned distance is the minimum over all computed distances; below the
threshold the returned pair is the first (load-order) candidate achieving
the minimum; above it the label is "unknown" with that minimum distance. -/
theorem findBestMatch_spec (dist : List ℚ → List ℚ → ℚ)
    (lds : List LabeledDescriptor) (query : List ℚ) (hne : lds ≠ []) :
    (∀ ld ∈ lds,
      (findBestMatch dist (3/5) lds query).distance ≤ dist query ld.descriptor) ∧
    (∃ ld ∈ lds,
      dist query ld.descriptor = (findBestMatch dist (3/5) lds query).distance) ∧
    ((findBestMatch dist (3/5) lds query).distance < 3/5 →
      (lds.map fun ld => (ld.label, dist query ld.descriptor)).find?
          (fun p => decide (p.2 ≤ (findBestMatch dist (3/5) lds query).distance))
        = some ((findBestMatch dist (3/5) lds query).label,
            (findBestMatch dist (3/5) lds query).distance)) ∧
    (3/5 < (findBestMatch dist (3/5) lds query).distance →
      (findBestMatch dist (3/5) lds query).label = "unknown") := by
  cases lds with
  | nil => exact absurd rfl hne
  | cons a as =>
    obtain ⟨hmin, hfind⟩ :=
      foldl_pickMin_spec (as.map fun ld => (ld.label, dist query ld.descriptor))
        (a.label, dist query a.descriptor)
    set r :=
      ((as.map fun ld => (ld.label, dist query ld.descriptor)).foldl pickMin
        (a.label, dist query a.descriptor)) with hr
    have hm : findBestMatch dist (3/5) (a :: as) query
        = if r.2 < 3/5 then ⟨r.1, r.2⟩ else ⟨"unknown", r.2⟩ := rfl
    have hmd : (findBestMatch dist (3/5) (a :: as) query).distance = r.2 := by
      rw [hm]
      by_cases hb : r.2 < 3/5
      · rw [if_pos hb]
      · rw [if_neg hb]
    refine ⟨?_, ?_, ?_, ?_⟩
    · intro ld hld
      rw [hmd]
      exact hmin (ld.label, dist query ld.descriptor)
        (by
          rcases List.mem_cons.mp hld with hh | ht
          · subst hh; exact List.mem_cons_self _ _
          · exact List.mem_cons_of_mem _ (List.mem_map_of_mem _ ht))
    · have hrmem : r ∈ (a.label, dist query a.descriptor)
          :: as.map fun ld => (ld.label, dist query ld.descriptor) :=
        List.mem_of_find?_eq_some hfind
      rcases List.mem_cons.mp hrmem with hh | ht
      · exact ⟨a, List.mem_cons_self a as, by rw [hmd, hh]⟩
      · obtain ⟨ld, hld, hldr⟩ := List.mem_map.mp ht
        exact ⟨ld, List.mem_cons_of_mem a hld,
          by rw [hmd, ← hldr]⟩
    · intro hlt
      rw [hmd] at hlt
      have hmfull : findBestMatch dist (3/5) (a :: as) query = ⟨r.1, r.2⟩ := by
        rw [hm, if_pos hlt]
      rw [hmfull]
      show ((a :: as).map fun ld => (ld.label, dist query ld.descriptor)).find?
          (fun p => decide (p.2 ≤ r.2)) = some (r.1, r.2)
      rw [List.map_cons]
      exact hfind.trans (by rw [Prod.mk.eta])
    · intro hgt
      rw [hmd] at hgt
      rw [hm, if_neg (by exact not_lt.mpr (le_of_lt hgt))]

/-- C3 (matcher modelled from the spec): for a nonempty labeled set, the
returned distance is the minimum over all computed distances; when it is
below the 0.6 threshold the returned pair is the first (load-order)
candidate achieving the minimum; when the nearest stored distance exceeds
0.6 the returned label is "unknown" still carrying that minimum distance. -/
theorem c3_matcher_contract (dist : List ℚ → List ℚ → ℚ)
    (lds : List LabeledDescriptor) (query : List ℚ) (hne : lds ≠ []) :
    (∀ ld ∈ lds,
      (findBestMatch dist (3/5) lds query).distance ≤ dist query ld.descriptor) ∧
    (∃ ld ∈ lds,
      dist query ld.descriptor = (findBestMatch dist (3/5) lds query).distance) ∧
    ((findBestMatch dist (3/5) lds query).distance < 3/5 →
      (lds.map fun ld => (ld.label, dist query ld.descriptor)).find?
          (fun p => decide (p.2 ≤ (findBestMatch dist (3/5) lds query).distance))
        = some ((findBestMatch dist (3/5) lds query).label,
            (findBestMatch dist (3/5) lds query).distance)) ∧
    (3/5 < (findBestMatch dist (3/5) lds query).distance →
      (findBestMatch dist (3/5) lds query).label = "unknown") :=
  findBestMatch_spec dist lds query hne

/-- First labeled descriptor for the concrete matcher runs. -/
def ldA : LabeledDescriptor := ⟨"a", [0, 1]⟩

/-- Second labeled descriptor for the concrete matcher runs. -/
def ldB : LabeledDescriptor := ⟨"b", [2, 3]⟩

/-- Witness for C3 on two stored descriptors queried with the first one. -/
theorem c3_witness :
    ([ldA, ldB] : List LabeledDescriptor) ≠ [] ∧
    ((∀ ld ∈ [ldA, ldB],
        (findBestMatch euclidSq (3/5) [ldA, ldB] [(0:ℚ), 1]).distance
          ≤ euclidSq [(0:ℚ), 1] ld.descriptor) ∧
     (∃ ld ∈ [ldA, ldB],
        euclidSq [(0:ℚ), 1] ld.descriptor
          = (findBestMatch euclidSq (3/5) [ldA, ldB] [(0:ℚ), 1]).distance) ∧
     ((findBestMatch euclidSq (3/5) [ldA, ldB] [(0:ℚ), 1]).distance < 3/5 →
        ([ldA, ldB].map fun ld => (ld.label, euclidSq [(0:ℚ), 1] ld.descriptor)).find?
            (fun p => decide
              (p.2 ≤ (findBestMatch euclidSq (3/5) [ldA, ldB] [(0:ℚ), 1]).distance))
          = some ((findBestMatch euclidSq (3/5) [ldA, ldB] [(0:ℚ), 1]).label,
              (findBestMatch euclidSq (3/5) [ldA, ldB] [(0:ℚ), 1]).distance)) ∧
     (3/5 < (findBestMatch euclidSq (3/5) [ldA, ldB] [(0:ℚ), 1]).distance →
        (findBestMatch euclidSq (3/5) [ldA, ldB] [(0:ℚ), 1]).label = "unknown")) :=
  ⟨List.cons_ne_nil _ _,
   c3_matcher_contract euclidSq [ldA, ldB] [0, 1] (List.cons_ne_nil _ _)⟩

/-- The squared Euclidean distance from a vector to itself vanishes. -/
theorem euclidSq_self (a : List ℚ) : euclidSq a a = 0 := by
  induction a with
  | nil => rfl
  | cons x xs ih =>
    rw [euclidSq, List.zip_cons_cons, List.map_cons, List.sum_cons, sub_self]
    rw [euclidSq] at ih
    rw [ih]
    norm_num

/-- The squared Euclidean distance is nonnegative. -/
theorem euclidSq_nonneg (a b : List ℚ) : 0 ≤ euclidSq a b := by
  rw [euclidSq]
  apply List.sum_nonneg
  intro x hx
  obtain ⟨p, hp, hpx⟩ := List.mem_map.mp hx
  rw [← hpx]
  exact sq_nonneg _

/-- The similarity score produced by the recognizeFaces map body is always
1 minus the best-match distance, in both the known and unknown branches. -/
theorem matchToFace_score (kfs : List KnownFace) (m : FaceMatch) (b : Box) :
    (matchToFace kfs m b).score = some (1 - m.distance) := by
  rw [matchToFace]
  split
  · split
    · rfl
    · rfl
  · rfl

/-- When the matched label is "unknown", the recognizeFaces map body takes
the unknown branch regardless of the lookup. -/
theorem matchToFace_eq_unknown (kfs : List KnownFace) (m : FaceMatch) (b : Box)
    (h : m.label = "unknown") : matchToFace kfs m b = unknownResult m b := by
  rw [matchToFace]
  split
  · rw [if_neg (by simp [h])]
  · rfl

/-- A non-"unknown" matcher label means the minimum distance was strictly
below the threshold. -/
theorem findBestMatch_label_lt (dist : List ℚ → List ℚ → ℚ) (th : ℚ)
    (lds : List LabeledDescriptor) (query : List ℚ)
    (h : (findBestMatch dist th lds query).label ≠ "unknown") :
    (findBestMatch dist th lds query).distance < th := by
  cases lds with
  | nil => exact absurd rfl h
  | cons a as =>
    set r :=
      ((as.map fun ld => (ld.label, dist query ld.descriptor)).foldl pickMin
        (a.label, dist query a.descriptor)) with hr
    have hm : findBestMatch dist th (a :: as) query
        = if r.2 < th then ⟨r.1, r.2⟩ else ⟨"unknown", r.2⟩ := rfl
    by_cases hb : r.2 < th
    · rw [hm, if_pos hb]
      exact hb
    · rw [hm, if_neg hb] at h
      exact absurd rfl h

/-- C8 counterexample: two identities store the identical descriptor [0];
querying with that very descriptor returns the first label "a" (load-order
tie-break), so the claim fails for the stored pair ("b", [0]) even though
its descriptor is identical to the query. -/
theorem c8_counterexample :
    findBestMatch euclidSq (3/5) [⟨"a", [0]⟩, ⟨"b", [0]⟩] [(0:ℚ)] = ⟨"a", 0⟩ ∧
    (⟨"b", [0]⟩ : LabeledDescriptor) ∈
      ([⟨"a", [0]⟩, ⟨"b", [0]⟩] : List LabeledDescriptor) ∧
    ("a" : String) ≠ "b" := by
  have h0 : euclidSq [(0:ℚ)] [0] = 0 := euclidSq_self [0]
  refine ⟨?_, by simp, by simp⟩
  show (let best := pickMin ("a", euclidSq [(0:ℚ)] [0]) ("b", euclidSq [(0:ℚ)] [0])
        if best.2 < (3:ℚ)/5 then (⟨best.1, best.2⟩ : FaceMatch)
        else ⟨"unknown", best.2⟩) = ⟨"a", 0⟩
  rw [h0]
  norm_num [pickMin]

/-- find? skips a prefix on which the predicate is everywhere false. -/
theorem find?_append_none {α : Type} (p : α → Bool) (l1 l2 : List α)
    (h : ∀ x ∈ l1, p x = false) : (l1 ++ l2).find? p = l2.find? p := by
  induction l1 with
  | nil => rfl
  | cons a t ih =>
    rw [List.cons_append,
      List.find?_cons_of_neg _ (by simp [h a (List.mem_cons_self a t)])]
    exact ih fun x hx => h x (List.mem_cons_of_mem a hx)

/-- C8 (amended): when ⟨L, d⟩ is stored and no earlier-loaded descriptor is
at distance 0 from d, querying with the identical descriptor d returns
label L with distance 0, and the recognizeFaces score 1 - distance is 1.
(Without the no-earlier-tie hypothesis the load-order tie-break can return
an earlier label, as the counterexample shows.) -/
theorem c8_amended_identical_query (pre post : List LabeledDescriptor)
    (L : String) (d : List ℚ) (kfs : List KnownFace) (b : Box)
    (hpre : ∀ ld ∈ pre, euclidSq d ld.descriptor ≠ 0) :
    findBestMatch euclidSq (3/5) (pre ++ ⟨L, d⟩ :: post) d = ⟨L, 0⟩ ∧
    (matchToFace kfs
        (findBestMatch euclidSq (3/5) (pre ++ ⟨L, d⟩ :: post) d) b).score
      = some 1 := by
  have hne : pre ++ (⟨L, d⟩ : LabeledDescriptor) :: post ≠ [] := by
    cases pre <;> simp
  obtain ⟨hmin, hex, hfind, -⟩ :=
    findBestMatch_spec euclidSq (pre ++ ⟨L, d⟩ :: post) d hne
  have hmem : (⟨L, d⟩ : LabeledDescriptor)
      ∈ pre ++ (⟨L, d⟩ : LabeledDescriptor) :: post := by simp
  have hle : (findBestMatch euclidSq (3/5) (pre ++ ⟨L, d⟩ :: post) d).distance
      ≤ 0 := by
    have h2 := hmin ⟨L, d⟩ hmem
    dsimp only at h2
    rwa [euclidSq_self] at h2
  have hge : 0
      ≤ (findBestMatch euclidSq (3/5) (pre ++ ⟨L, d⟩ :: post) d).distance := by
    obtain ⟨ld, hld, hldd⟩ := hex
    rw [← hldd]
    exact euclidSq_nonneg _ _
  have hd0 : (findBestMatch euclidSq (3/5) (pre ++ ⟨L, d⟩ :: post) d).distance
      = 0 := le_antisymm hle hge
  have hlt : (findBestMatch euclidSq (3/5) (pre ++ ⟨L, d⟩ :: post) d).distance
      < 3/5 := by
    rw [hd0]
    norm_num
  have hf := hfind hlt
  rw [hd0] at hf
  have hskip : ∀ x ∈ pre.map (fun ld => (ld.label, euclidSq d ld.descriptor)),
      (fun p : String × ℚ => decide (p.2 ≤ (0:ℚ))) x = false := by
    intro x hx
    obtain ⟨ld, hld, hldx⟩ := List.mem_map.mp hx
    rw [← hldx]
    simp only [decide_eq_false_iff_not]
    exact not_le.mpr (lt_of_le_of_ne (euclidSq_nonneg d ld.descriptor)
      (Ne.symm (hpre ld hld)))
  have hfval : ((pre ++ (⟨L, d⟩ : LabeledDescriptor) :: post).map
      fun ld => (ld.label, euclidSq d ld.descriptor)).find?
      (fun p => decide (p.2 ≤ (0:ℚ))) = some (L, 0) := by
    rw [List.map_append, List.map_cons, find?_append_none _ _ _ hskip]
    simp [List.find?_cons, euclidSq_self]
  have hsome : some
      ((findBestMatch euclidSq (3/5) (pre ++ ⟨L, d⟩ :: post) d).label, (0:ℚ))
      = some (L, 0) := hf.symm.trans hfval
  have hl : (findBestMatch euclidSq (3/5) (pre ++ ⟨L, d⟩ :: post) d).label = L :=
    congrArg Prod.fst (Option.some.inj hsome)
  have hfull : findBestMatch euclidSq (3/5) (pre ++ ⟨L, d⟩ :: post) d
      = ⟨L, 0⟩ := by
    have hmk : findBestMatch euclidSq (3/5) (pre ++ ⟨L, d⟩ :: post) d
        = ⟨(findBestMatch euclidSq (3/5) (pre ++ ⟨L, d⟩ :: post) d).label,
           (findBestMatch euclidSq (3/5) (pre ++ ⟨L, d⟩ :: post) d).distance⟩ :=
      rfl
    rw [hmk, hl, hd0]
  refine ⟨hfull, ?_⟩
  rw [hfull, matchToFace_score]
  norm_num

/-- An identity stored before the queried one, at a nonzero distance. -/
def ldPre : LabeledDescriptor := ⟨"a", [5]⟩

/-- Witness for C8 (amended): descriptor [0] stored under "b" behind the
non-matching "a"; querying [0] returns ("b", 0) and score 1. -/
theorem c8_witness :
    (∀ ld ∈ [ldPre], euclidSq [(0:ℚ)] ld.descriptor ≠ 0) ∧
    (findBestMatch euclidSq (3/5)
        ([ldPre] ++ (⟨"b", [(0:ℚ)]⟩ : LabeledDescriptor) :: []) [(0:ℚ)]
      = ⟨"b", 0⟩ ∧
     (matchToFace knownFaces
        (findBestMatch euclidSq (3/5)
          ([ldPre] ++ (⟨"b", [(0:ℚ)]⟩ : LabeledDescriptor) :: []) [(0:ℚ)])
        sampleBox).score = some 1) := by
  have hp : ∀ ld ∈ [ldPre], euclidSq [(0:ℚ)] ld.descriptor ≠ 0 := by
    intro ld hld
    rw [List.mem_singleton] at hld
    subst hld
    show euclidSq [(0:ℚ)] [5] ≠ 0
    rw [euclidSq]
    simp only [List.zip_cons_cons, List.zip_nil_right, List.map_cons,
      List.map_nil, List.sum_cons, List.sum_nil]
    norm_num
  exact ⟨hp,
    c8_amended_identical_query [ldPre] [] "b" [0] knownFaces sampleBox hp⟩

/-- C10: with a matcher, recognizeFaces maps every detection through the
matcher; the score is always 1 minus the best-match distance; every face
whose category is not "unknown" carries a score of at least 2/5 (the match
distance was below the 0.6 threshold); and whenever the nearest stored
distance is 1 or more the face is the "Unknown" one with a score of 0 or
below. -/
theorem c10_score_from_distance (lds : List LabeledDescriptor)
    (query : List ℚ) (kfs : List KnownFace) (b : Box) (dets : List Detection) :
    recognizeFaces (some lds) kfs dets
      = dets.map (fun d =>
          matchToFace kfs (findBestMatch euclidSq (3/5) lds d.descriptor) d.box) ∧
    (matchToFace kfs (findBestMatch euclidSq (3/5) lds query) b).score
      = some (1 - (findBestMatch euclidSq (3/5) lds query).distance) ∧
    ((matchToFace kfs (findBestMatch euclidSq (3/5) lds query) b).category
        ≠ "unknown" →
      ∃ s, (matchToFace kfs (findBestMatch euclidSq (3/5) lds query) b).score
          = some s ∧ (2:ℚ)/5 ≤ s) ∧
    (1 ≤ (findBestMatch euclidSq (3/5) lds query).distance →
      (matchToFace kfs (findBestMatch euclidSq (3/5) lds query) b).name
          = "Unknown" ∧
      (matchToFace kfs (findBestMatch euclidSq (3/5) lds query) b).category
          = "unknown" ∧
      ∃ s, (matchToFace kfs (findBestMatch euclidSq (3/5) lds query) b).score
          = some s ∧ s ≤ 0) := by
  refine ⟨rfl, matchToFace_score kfs _ b, ?_, ?_⟩
  · intro hcat
    have hlab : (findBestMatch euclidSq (3/5) lds query).label ≠ "unknown" := by
      intro he
      apply hcat
      rw [matchToFace_eq_unknown kfs _ b he]
      rfl
    have hlt := findBestMatch_label_lt euclidSq (3/5) lds query hlab
    exact ⟨1 - (findBestMatch euclidSq (3/5) lds query).distance,
      matchToFace_score kfs _ b, by linarith⟩
  · intro hge
    have hnlt : ¬ (findBestMatch euclidSq (3/5) lds query).distance < 3/5 := by
      intro h
      linarith
    have hlab : (findBestMatch euclidSq (3/5) lds query).label = "unknown" := by
      by_contra hl
      exact hnlt (findBestMatch_label_lt euclidSq (3/5) lds query hl)
    rw [matchToFace_eq_unknown kfs _ b hlab]
    exact ⟨rfl, rfl, 1 - (findBestMatch euclidSq (3/5) lds query).distance,
      rfl, by linarith⟩

/-- Folding the loader loop from any accumulator appends exactly the
successful extractions, in order. -/
theorem collectDescriptors_aux (entries : List (KnownFace × RefOutcome))
    (acc : List LabeledDescriptor) :
    entries.foldl
      (fun acc e =>
        match e.2 with
        | .ok d => acc ++ [⟨e.1.id, d⟩]
        | .fetchError => acc
        | .noFace => acc)
      acc
      = acc ++ entries.filterMap okProj := by
  induction entries generalizing acc with
  | nil => simp
  | cons e t ih =>
    rw [List.foldl_cons, List.filterMap_cons]
    cases ho : e.2 with
    | ok d =>
      have hproj : okProj e = some ⟨e.1.id, d⟩ := by rw [okProj, ho]
      rw [hproj]
      have hg := ih (acc ++ [⟨e.1.id, d⟩])
      rw [List.append_assoc] at hg
      exact hg
    | fetchError =>
      have hproj : okProj e = none := by rw [okProj, ho]
      rw [hproj]
      exact ih acc
    | noFace =>
      have hproj : okProj e = none := by rw [okProj, ho]
      rw [hproj]
      exact ih acc

/-- The loader loop collects exactly the successful extractions. -/
theorem collectDescriptors_eq (l : List (KnownFace × RefOutcome)) :
    collectDescriptors l = l.filterMap okProj := by
  rw [collectDescriptors, collectDescriptors_aux l []]
  simp

/-- C7: a fetch error or a zero-face reference image is non-fatal and local
to that identity: removing it changes nothing else (the collected set is
the concatenation of what the surrounding entries contribute), and in
general the labeled set is exactly the successful extractions in load
order. -/
theorem c7_reference_failure_local (pre post l : List (KnownFace × RefOutcome))
    (f : KnownFace) (o : RefOutcome)
    (ho : o = RefOutcome.fetchError ∨ o = RefOutcome.noFace) :
    collectDescriptors (pre ++ (f, o) :: post)
      = collectDescriptors pre ++ collectDescriptors post ∧
    collectDescriptors l = l.filterMap okProj := by
  refine ⟨?_, collectDescriptors_eq l⟩
  rw [collectDescriptors_eq, collectDescriptors_eq, collectDescriptors_eq,
    List.filterMap_append, List.filterMap_cons]
  have hnone : okProj (f, o) = none := by
    rcases ho with h | h
    · rw [okProj, h]
    · rw [okProj, h]
  rw [hnone]

/-- A small reference identity used by the loader witnesses. -/
def kfT : KnownFace := ⟨"t", "T", "u", "user"⟩

/-- Witness for C7: a fetch error between two successful extractions. -/
theorem c7_witness :
    (RefOutcome.fetchError = RefOutcome.fetchError
      ∨ RefOutcome.fetchError = RefOutcome.noFace) ∧
    (collectDescriptors
        ([(kfT, RefOutcome.ok [1])] ++ (kfT, RefOutcome.fetchError)
          :: [(kfT, RefOutcome.ok [2])])
      = collectDescriptors [(kfT, RefOutcome.ok [1])]
        ++ collectDescriptors [(kfT, RefOutcome.ok [2])] ∧
     collectDescriptors [(kfT, RefOutcome.noFace)]
      = [(kfT, RefOutcome.noFace)].filterMap okProj) :=
  ⟨Or.inl rfl,
   c7_reference_failure_local [(kfT, RefOutcome.ok [1])]
     [(kfT, RefOutcome.ok [2])] [(kfT, RefOutcome.noFace)] kfT
     RefOutcome.fetchError (Or.inl rfl)⟩

/-- C4 counterexample: when every reference image yields no face, the
labeled set is empty, loadReferenceFaces returns false, and the component
loadModels turns that false into the failure toast — the caller reports a
load error instead of announcing a detection-only mode. -/
theorem c4_counterexample :
    loadReferenceFaces (knownFaces.map fun f => (f, RefOutcome.noFace))
      = (none, false) ∧
    loadModels true false = LoadOutcome.loadErrorToast ∧
    LoadOutcome.loadErrorToast ≠ LoadOutcome.ready := by
  refine ⟨rfl, rfl, by decide⟩

/-- C4 (amended): an empty labeled descriptor set is non-fatal at the
service level — loadReferenceFaces warns, builds no matcher and returns
false, and recognizeFaces falls back to scoreless "Face Detected" /
"unknown" entries whenever no matcher exists — but the component caller
treats the false return as a model-load failure and reports the failure
toast rather than a detection-only notice. -/
theorem c4_amended_degraded_mode (entries : List (KnownFace × RefOutcome))
    (kfs : List KnownFace) (dets : List Detection)
    (hempty : collectDescriptors entries = []) :
    loadReferenceFaces entries = (none, false) ∧
    (∀ f ∈ recognizeFaces none kfs dets,
      f.name = "Face Detected" ∧ f.category = "unknown" ∧ f.score = none) ∧
    loadModels true (loadReferenceFaces entries).2
      = LoadOutcome.loadErrorToast := by
  have hlrf : loadReferenceFaces entries = (none, false) := by
    show (if (collectDescriptors entries).isEmpty
        then ((none : Option (List LabeledDescriptor)), false)
        else (some (collectDescriptors entries), true)) = (none, false)
    rw [hempty]
    rfl
  refine ⟨hlrf, ?_, ?_⟩
  · intro f hf
    obtain ⟨d, -, hd⟩ := List.mem_map.mp hf
    rw [← hd]
    exact ⟨rfl, rfl, rfl⟩
  · rw [hlrf]
    rfl

/-- Witness for C4 (amended) on a single zero-face reference entry. -/
theorem c4_witness :
    collectDescriptors [(kfT, RefOutcome.noFace)] = [] ∧
    (loadReferenceFaces [(kfT, RefOutcome.noFace)] = (none, false) ∧
     (∀ f ∈ recognizeFaces none knownFaces [⟨sampleBox, [0]⟩],
        f.name = "Face Detected" ∧ f.category = "unknown" ∧ f.score = none) ∧
     loadModels true (loadReferenceFaces [(kfT, RefOutcome.noFace)]).2
      = LoadOutcome.loadErrorToast) :=
  ⟨rfl, c4_amended_degraded_mode [(kfT, RefOutcome.noFace)] knownFaces
    [⟨sampleBox, [0]⟩] rfl⟩

end AlertifyVision
